import Mathlib

set_option linter.unusedVariables false

/-- Transaction kinds recorded in the log, mirroring the union type
`'deposit' | 'withdraw' | 'transfer'` of the source data model. -/
inductive TxType
  | deposit
  | withdraw
  | transfer
  deriving DecidableEq, Repr

/-- Classified failures of the banking core, one per `throw new Error(...)` site
in the service: `InvalidAmount`, `AccountNotFound`, `InsufficientFunds`,
`SelfTransfer` and the fail-fast `Busy` of the lock registry. -/
inductive BankError
  | invalidAmount
  | accountNotFound
  | insufficientFunds
  | selfTransfer
  | busy
  deriving DecidableEq, Repr

/-- An account record `{ id, name, balance }` from the source model. Balances are
JavaScript numbers in the source; they are modelled as exact integers. -/
structure Account where
  id : String
  name : String
  balance : Int
  deriving DecidableEq, Repr

/-- A transaction log entry `{ id, fromAccountId?, toAccountId?, from?, to?,
amount, type, timestamp }` from the source model. The optional `from` / `to`
display-name fields are called `fromName` / `toName` here. -/
structure TransactionLog where
  id : String
  fromAccountId : Option String := none
  toAccountId : Option String := none
  fromName : Option String := none
  toName : Option String := none
  amount : Int
  type : TxType
  timestamp : String
  deriving DecidableEq, Repr

/-- The mutable state of the `BankingService` singleton: the `accounts` Map
(modelled as an association list in insertion order, keys unique in every
reachable state), the global `transactions` array, and the `locks` Set. -/
structure BankState where
  accounts : List Account
  transactions : List TransactionLog
  locks : List String
  deriving DecidableEq, Repr

/-- Map lookup `this.accounts.get(id)`. -/
def getAccount (st : BankState) (id : String) : Option Account :=
  st.accounts.find? (fun a => a.id == id)

/-- Name scan `accountExists(name)`: iterates the Map values and compares the
`name` field. -/
def accountExists (st : BankState) (name : String) : Bool :=
  st.accounts.any (fun a => a.name == name)

/-- Map insertion `this.accounts.set(id, account)`: replace the entry with that
key if present, otherwise append (JavaScript Maps keep insertion order). -/
def setAccount (accounts : List Account) (acct : Account) : List Account :=
  if accounts.any (fun a => a.id == acct.id) then
    accounts.map (fun a => if a.id == acct.id then acct else a)
  else accounts ++ [acct]

/-- In-place mutation `account.balance = f(account.balance)` of the record
stored under key `id` in the Map. -/
def updateBalance (accounts : List Account) (id : String) (f : Int → Int) :
    List Account :=
  accounts.map (fun a => if a.id == id then { a with balance := f a.balance } else a)

/-- Source `createAccount(name, balance)`. The fresh uuid produced by the
external `uuidv4()` collaborator is passed in as `newId`. -/
def createAccount (newId name : String) (balance : Int) (st : BankState) :
    Except BankError Account × BankState :=
  if balance < 0 then (Except.error BankError.invalidAmount, st)
  else
    let account : Account := { id := newId, name := name, balance := balance }
    (Except.ok account, { st with accounts := setAccount st.accounts account })

/-- Source `deposit(id, amount)`: acquire the account's lock (fail `Busy` if
held), then inside try: validate amount, look up the account, credit it and
append one log entry; the finally clause releases the lock on every path. The
external uuid and formatted timestamp are passed in as `newId` and `now`. -/
def deposit (newId now id : String) (amount : Int) (st : BankState) :
    Except BankError TransactionLog × BankState :=
  if st.locks.contains id then (Except.error BankError.busy, st)
  else
    let st1 : BankState := { st with locks := id :: st.locks }
    if amount ≤ 0 then
      (Except.error BankError.invalidAmount, { st1 with locks := st1.locks.erase id })
    else
      match getAccount st1 id with
      | none =>
          (Except.error BankError.accountNotFound,
            { st1 with locks := st1.locks.erase id })
      | some account =>
          let tlog : TransactionLog :=
            { id := newId, toAccountId := some id, toName := some account.name,
              amount := amount, type := TxType.deposit, timestamp := now }
          (Except.ok tlog,
            { st1 with
                accounts := updateBalance st1.accounts id (fun b => b + amount),
                transactions := st1.transactions ++ [tlog],
                locks := st1.locks.erase id })

/-- Source `withdraw(id, amount)`: acquire the lock, then inside try: validate
amount, look up the account, check funds, debit it and append one log entry;
the finally clause releases the lock on every path. -/
def withdraw (newId now id : String) (amount : Int) (st : BankState) :
    Except BankError TransactionLog × BankState :=
  if st.locks.contains id then (Except.error BankError.busy, st)
  else
    let st1 : BankState := { st with locks := id :: st.locks }
    if amount ≤ 0 then
      (Except.error BankError.invalidAmount, { st1 with locks := st1.locks.erase id })
    else
      match getAccount st1 id with
      | none =>
          (Except.error BankError.accountNotFound,
            { st1 with locks := st1.locks.erase id })
      | some account =>
          if account.balance < amount then
            (Except.error BankError.insufficientFunds,
              { st1 with locks := st1.locks.erase id })
          else
            let tlog : TransactionLog :=
              { id := newId, fromAccountId := some id, fromName := some account.name,
                amount := amount, type := TxType.withdraw, timestamp := now }
            (Except.ok tlog,
              { st1 with
                  accounts := updateBalance st1.accounts id (fun b => b - amount),
                  transactions := st1.transactions ++ [tlog],
                  locks := st1.locks.erase id })

/-- Lexicographic comparison of two account ids, as used by the JavaScript
`[fromId, toId].sort()` call: character-by-character order on the underlying
character sequences. -/
def idLt (a b : String) : Bool :=
  decide (a.data < b.data)

/-- Source `transfer(fromId, toId, amount)`. The two structural checks come
first (self-transfer, then non-positive amount), then the two ids are sorted
(`[fromId, toId].sort()`, lexicographic) and the locks acquired in that order.
Faithfully to the source, both `acquireLock` calls happen before the
try/finally block: when the second lock is already held, the error propagates
with the first lock still in the lock set. All paths inside the try release
both locks in reverse order through the finally clause. -/
def transfer (newId now fromId toId : String) (amount : Int) (st : BankState) :
    Except BankError TransactionLog × BankState :=
  if fromId == toId then (Except.error BankError.selfTransfer, st)
  else if amount ≤ 0 then (Except.error BankError.invalidAmount, st)
  else
    let first := if idLt fromId toId then fromId else toId
    let second := if idLt fromId toId then toId else fromId
    if st.locks.contains first then (Except.error BankError.busy, st)
    else
      let st1 : BankState := { st with locks := first :: st.locks }
      if st1.locks.contains second then (Except.error BankError.busy, st1)
      else
        let st2 : BankState := { st1 with locks := second :: st1.locks }
        match getAccount st2 fromId, getAccount st2 toId with
        | some fromAcct, some _ =>
            if fromAcct.balance < amount then
              (Except.error BankError.insufficientFunds,
                { st2 with locks := (st2.locks.erase second).erase first })
            else
              let tlog : TransactionLog :=
                { id := newId, fromAccountId := some fromId, toAccountId := some toId,
                  amount := amount, type := TxType.transfer, timestamp := now }
              (Except.ok tlog,
                { st2 with
                    accounts :=
                      updateBalance
                        (updateBalance st2.accounts fromId (fun b => b - amount))
                        toId (fun b => b + amount),
                    transactions := st2.transactions ++ [tlog],
                    locks := (st2.locks.erase second).erase first })
        | _, _ =>
            (Except.error BankError.accountNotFound,
              { st2 with locks := (st2.locks.erase second).erase first })

/-- Source `getTransactionLogs(id)`: fail `AccountNotFound` when the Map has no
such key, otherwise filter the global log for entries whose `fromAccountId` or
`toAccountId` equals `id`. -/
def getTransactionLogs (st : BankState) (id : String) :
    Except BankError (List TransactionLog) :=
  if st.accounts.any (fun a => a.id == id) then
    Except.ok
      (st.transactions.filter
        (fun t => t.fromAccountId == some id || t.toAccountId == some id))
  else Except.error BankError.accountNotFound

/-- Source `getAllAccounts()`: `Array.from(this.accounts.values())`. -/
def getAllAccounts (st : BankState) : List Account :=
  st.accounts

/-- Source `getAllTransactions()`: the full global log. -/
def getAllTransactions (st : BankState) : List TransactionLog :=
  st.transactions

/-- The read method `getAccount` as a state transformer: its body only reads,
so the state component is returned unchanged. -/
def getAccountOp (st : BankState) (id : String) : Option Account × BankState :=
  (getAccount st id, st)

/-- The read method `accountExists` as a state transformer. -/
def accountExistsOp (st : BankState) (name : String) : Bool × BankState :=
  (accountExists st name, st)

/-- The read method `getAllAccounts` as a state transformer. -/
def getAllAccountsOp (st : BankState) : List Account × BankState :=
  (getAllAccounts st, st)

/-- The read method `getAllTransactions` as a state transformer. -/
def getAllTransactionsOp (st : BankState) : List TransactionLog × BankState :=
  (getAllTransactions st, st)

/-- The read method `getTransactionLogs` as a state transformer. -/
def getTransactionLogsOp (st : BankState) (id : String) :
    Except BankError (List TransactionLog) × BankState :=
  (getTransactionLogs st id, st)

/-- One service call, with the externally supplied uuid / timestamp inputs
carried in the constructor. -/
inductive Op
  | create (newId name : String) (balance : Int)
  | deposit (newId now id : String) (amount : Int)
  | withdraw (newId now id : String) (amount : Int)
  | transfer (newId now fromId toId : String) (amount : Int)
  deriving DecidableEq, Repr

/-- Execute one call: the Bool records whether it succeeded. -/
def step (st : BankState) : Op → Bool × BankState
  | Op.create newId name bal =>
      match createAccount newId name bal st with
      | (Except.ok _, s) => (true, s)
      | (Except.error _, s) => (false, s)
  | Op.deposit newId now id amount =>
      match deposit newId now id amount st with
      | (Except.ok _, s) => (true, s)
      | (Except.error _, s) => (false, s)
  | Op.withdraw newId now id amount =>
      match withdraw newId now id amount st with
      | (Except.ok _, s) => (true, s)
      | (Except.error _, s) => (false, s)
  | Op.transfer newId now fromId toId amount =>
      match transfer newId now fromId toId amount st with
      | (Except.ok _, s) => (true, s)
      | (Except.error _, s) => (false, s)

/-- Execute a sequence of calls in order. -/
def run (st : BankState) (ops : List Op) : BankState :=
  ops.foldl (fun s o => (step s o).2) st

/-- Whether the call is one of the three financial operations that write the
transaction log (account creation does not). -/
def isFinancial : Op → Bool
  | Op.create _ _ _ => false
  | _ => true

/-- Number of successful financial operations in a run. -/
def successCount (st : BankState) : List Op → Nat
  | [] => 0
  | o :: rest =>
      (if (step st o).1 && isFinancial o then 1 else 0) +
        successCount (step st o).2 rest

/-- The balance stored under key `id`, when the account exists. -/
def balanceOf (st : BankState) (id : String) : Option Int :=
  (getAccount st id).map Account.balance

/-- The sum of all account balances. -/
def sumBalances (st : BankState) : Int :=
  (st.accounts.map Account.balance).sum

/-- A sample two-account state used for concrete witnesses. -/
def aliceBob : BankState :=
  { accounts := [{ id := "a", name := "Alice", balance := 100 },
                 { id := "b", name := "Bob", balance := 50 }],
    transactions := [], locks := [] }

/-- A sample state in which account `b`'s lock is held by a concurrent
in-flight operation (for example a deposit on `b` currently inside its
critical section). -/
def lockedBob : BankState :=
  { accounts := [{ id := "a", name := "Alice", balance := 100 },
                 { id := "b", name := "Bob", balance := 50 }],
    transactions := [], locks := ["b"] }

/-- A sample state with two committed log entries, one touching account `a`
and one touching account `b`. -/
def logsState : BankState :=
  { accounts := [{ id := "a", name := "Alice", balance := 150 },
                 { id := "b", name := "Bob", balance := 100 }],
    transactions :=
      [{ id := "t1", toAccountId := some "a", toName := some "Alice",
         amount := 50, type := TxType.deposit, timestamp := "ts1" },
       { id := "t2", toAccountId := some "b", toName := some "Bob",
         amount := 50, type := TxType.deposit, timestamp := "ts2" }],
    locks := [] }

theorem find_cons_pos (b : Account) (t : List Account) (p : Account → Bool)
    (h : p b = true) : (b :: t).find? p = some b := by
  simp [List.find?, h]

theorem find_cons_neg (b : Account) (t : List Account) (p : Account → Bool)
    (h : p b = false) : (b :: t).find? p = t.find? p := by
  simp [List.find?, h]

theorem updateBalance_cons (b : Account) (t : List Account) (id : String)
    (f : Int → Int) :
    updateBalance (b :: t) id f =
      (if b.id == id then { b with balance := f b.balance } else b) ::
        updateBalance t id f := rfl

theorem find_eq_of_nodup {l : List Account} {id : String} {acct : Account}
    (hnd : (l.map Account.id).Nodup)
    (hf : l.find? (fun a => a.id == id) = some acct) :
    ∀ a ∈ l, a.id = id → a = acct := by
  induction l with
  | nil => simp at hf
  | cons b t ih =>
    simp only [List.map_cons, List.nodup_cons] at hnd
    intro a ha hid
    by_cases hb : (b.id == id) = true
    · rw [find_cons_pos b t _ hb] at hf
      injection hf with hf
      subst hf
      rcases List.mem_cons.mp ha with rfl | hat
      · rfl
      · exfalso
        apply hnd.1
        have hbid : b.id = id := by simpa using hb
        rw [hbid, ← hid]
        exact List.mem_map_of_mem Account.id hat
    · rw [find_cons_neg b t _ (by simpa using hb)] at hf
      rcases List.mem_cons.mp ha with rfl | hat
      · exact absurd (by simpa using hid) (by simpa using hb)
      · exact ih hnd.2 hf a hat hid

theorem updateBalance_map_id (l : List Account) (id : String) (f : Int → Int) :
    (updateBalance l id f).map Account.id = l.map Account.id := by
  unfold updateBalance
  rw [List.map_map]
  apply List.map_congr_left
  intro a ha
  by_cases hb : (a.id == id) = true <;> simp [Function.comp, hb]

theorem updateBalance_not_mem (l : List Account) (id : String) (f : Int → Int)
    (h : ∀ a ∈ l, a.id ≠ id) : updateBalance l id f = l := by
  unfold updateBalance
  conv_rhs => rw [← List.map_id l]
  apply List.map_congr_left
  intro a ha
  have hne : ¬ (a.id == id) = true := by simpa using h a ha
  simp [hne]

theorem find_updateBalance_self (l : List Account) (id : String) (f : Int → Int) :
    (updateBalance l id f).find? (fun a => a.id == id) =
      (l.find? (fun a => a.id == id)).map
        (fun a => { a with balance := f a.balance }) := by
  induction l with
  | nil => rfl
  | cons b t ih =>
    rw [updateBalance_cons]
    by_cases hb : (b.id == id) = true
    · rw [if_pos hb, find_cons_pos _ _ _ (by simpa using hb),
        find_cons_pos b t _ hb]
      rfl
    · rw [if_neg hb, find_cons_neg b _ _ (by simpa using hb),
        find_cons_neg b t _ (by simpa using hb)]
      exact ih

theorem find_updateBalance_ne (l : List Account) (id id2 : String)
    (f : Int → Int) (h : id2 ≠ id) :
    (updateBalance l id f).find? (fun a => a.id == id2) =
      l.find? (fun a => a.id == id2) := by
  induction l with
  | nil => rfl
  | cons b t ih =>
    rw [updateBalance_cons]
    by_cases hb : (b.id == id) = true
    · have hbid : b.id = id := by simpa using hb
      have hb2 : (b.id == id2) = false := by
        rw [hbid]
        exact beq_eq_false_iff_ne.mpr (Ne.symm h)
      rw [if_pos hb, find_cons_neg _ _ _ (by simpa using hb2),
        find_cons_neg b t _ hb2]
      exact ih
    · rw [if_neg hb]
      by_cases hb2 : (b.id == id2) = true
      · rw [find_cons_pos _ _ _ hb2, find_cons_pos b t _ hb2]
      · rw [find_cons_neg _ _ _ (by simpa using hb2),
          find_cons_neg b t _ (by simpa using hb2)]
        exact ih

theorem sum_updateBalance (l : List Account) (id : String) (f : Int → Int)
    (acct : Account) (hnd : (l.map Account.id).Nodup)
    (hf : l.find? (fun a => a.id == id) = some acct) :
    ((updateBalance l id f).map Account.balance).sum =
      (l.map Account.balance).sum + (f acct.balance - acct.balance) := by
  induction l with
  | nil => simp at hf
  | cons b t ih =>
    simp only [List.map_cons, List.nodup_cons] at hnd
    rw [updateBalance_cons]
    by_cases hb : (b.id == id) = true
    · rw [find_cons_pos b t _ hb] at hf
      injection hf with hf
      subst hf
      have ht : updateBalance t id f = t := by
        apply updateBalance_not_mem
        intro a ha hai
        apply hnd.1
        have hbid : b.id = id := by simpa using hb
        rw [hbid, ← hai]
        exact List.mem_map_of_mem Account.id ha
      rw [if_pos hb, ht]
      simp only [List.map_cons, List.sum_cons]
      omega
    · rw [find_cons_neg b t _ (by simpa using hb)] at hf
      rw [if_neg hb]
      simp only [List.map_cons, List.sum_cons]
      rw [ih hnd.2 hf]
      omega

theorem nonneg_updateBalance_mono (l : List Account) (id : String)
    (f : Int → Int) (h1 : ∀ a ∈ l, 0 ≤ a.balance)
    (h2 : ∀ b : Int, 0 ≤ b → 0 ≤ f b) :
    ∀ a ∈ updateBalance l id f, 0 ≤ a.balance := by
  intro a ha
  unfold updateBalance at ha
  rcases List.mem_map.mp ha with ⟨b, hb, rfl⟩
  by_cases hid : (b.id == id) = true
  · simp only [if_pos hid]
    exact h2 _ (h1 b hb)
  · simp only [if_neg hid]
    exact h1 b hb

theorem nonneg_updateBalance_single (l : List Account) (id : String)
    (f : Int → Int) (acct : Account) (hnd : (l.map Account.id).Nodup)
    (hf : l.find? (fun a => a.id == id) = some acct)
    (h1 : ∀ a ∈ l, 0 ≤ a.balance) (h2 : 0 ≤ f acct.balance) :
    ∀ a ∈ updateBalance l id f, 0 ≤ a.balance := by
  intro a ha
  unfold updateBalance at ha
  rcases List.mem_map.mp ha with ⟨b, hb, rfl⟩
  by_cases hid : (b.id == id) = true
  · have hba : b = acct :=
      find_eq_of_nodup hnd hf b hb (by simpa using hid)
    subst hba
    simp only [if_pos hid]
    exact h2
  · simp only [if_neg hid]
    exact h1 b hb

theorem setAccount_nodup (l : List Account) (acct : Account)
    (h : (l.map Account.id).Nodup) :
    ((setAccount l acct).map Account.id).Nodup := by
  unfold setAccount
  by_cases hin : (l.any fun a => a.id == acct.id) = true
  · rw [if_pos hin, List.map_map]
    have hsame : l.map (Account.id ∘ fun a => if a.id == acct.id then acct else a) =
        l.map Account.id := by
      apply List.map_congr_left
      intro a ha
      by_cases hb : (a.id == acct.id) = true
      · have : a.id = acct.id := by simpa using hb
        simp [Function.comp, hb, this]
      · simp [Function.comp, hb]
    rw [hsame]
    exact h
  · rw [if_neg hin, List.map_append]
    have hall : ∀ x ∈ l, x.id ≠ acct.id := by simpa using hin
    have hnotin : acct.id ∉ l.map Account.id := by
      intro hmem
      rcases List.mem_map.mp hmem with ⟨b, hb, hid⟩
      exact hall b hb hid
    simp [List.nodup_append, h, hnotin]

theorem setAccount_nonneg (l : List Account) (acct : Account)
    (h1 : ∀ a ∈ l, 0 ≤ a.balance) (h2 : 0 ≤ acct.balance) :
    ∀ a ∈ setAccount l acct, 0 ≤ a.balance := by
  intro a ha
  unfold setAccount at ha
  by_cases hin : (l.any fun x => x.id == acct.id) = true
  · rw [if_pos hin] at ha
    rcases List.mem_map.mp ha with ⟨b, hb, rfl⟩
    by_cases hc : (b.id == acct.id) = true
    · simp only [if_pos hc]; exact h2
    · simp only [if_neg hc]; exact h1 b hb
  · rw [if_neg hin] at ha
    rcases List.mem_append.mp ha with hl | hr
    · exact h1 a hl
    · rw [List.mem_singleton.mp hr]
      exact h2

theorem createAccount_eq_invalid (newId name : String) (balance : Int)
    (st : BankState) (h : balance < 0) :
    createAccount newId name balance st =
      (Except.error BankError.invalidAmount, st) := by
  simp [createAccount, h]

theorem createAccount_eq_ok (newId name : String) (balance : Int)
    (st : BankState) (h : ¬ balance < 0) :
    createAccount newId name balance st =
      (Except.ok { id := newId, name := name, balance := balance },
        { st with accounts :=
            setAccount st.accounts { id := newId, name := name, balance := balance } }) := by
  simp [createAccount, h]

theorem deposit_eq_invalid (newId now id : String) (amount : Int)
    (st : BankState) (hlock : st.locks.contains id = false) (ha : amount ≤ 0) :
    deposit newId now id amount st = (Except.error BankError.invalidAmount, st) := by
  have hl : id ∉ st.locks := by simpa using hlock
  simp [deposit, hl, ha, List.erase_cons_head]

theorem deposit_eq_notFound (newId now id : String) (amount : Int)
    (st : BankState) (hlock : st.locks.contains id = false) (ha : ¬ amount ≤ 0)
    (hacct : getAccount st id = none) :
    deposit newId now id amount st =
      (Except.error BankError.accountNotFound, st) := by
  have hl : id ∉ st.locks := by simpa using hlock
  have hfind : st.accounts.find? (fun a => a.id == id) = none := hacct
  simp [deposit, getAccount, hl, ha, hfind, List.erase_cons_head]

theorem deposit_eq_ok (newId now id : String) (amount : Int) (st : BankState)
    (acct : Account) (hlock : st.locks.contains id = false) (ha : ¬ amount ≤ 0)
    (hacct : getAccount st id = some acct) :
    deposit newId now id amount st =
      (Except.ok { id := newId, toAccountId := some id, toName := some acct.name,
                   amount := amount, type := TxType.deposit, timestamp := now },
        { accounts := updateBalance st.accounts id (fun b => b + amount),
          transactions := st.transactions ++
            [{ id := newId, toAccountId := some id, toName := some acct.name,
               amount := amount, type := TxType.deposit, timestamp := now }],
          locks := st.locks }) := by
  have hl : id ∉ st.locks := by simpa using hlock
  have hfind : st.accounts.find? (fun a => a.id == id) = some acct := hacct
  simp [deposit, getAccount, hl, ha, hfind, List.erase_cons_head]

theorem withdraw_eq_invalid (newId now id : String) (amount : Int)
    (st : BankState) (hlock : st.locks.contains id = false) (ha : amount ≤ 0) :
    withdraw newId now id amount st =
      (Except.error BankError.invalidAmount, st) := by
  have hl : id ∉ st.locks := by simpa using hlock
  simp [withdraw, hl, ha, List.erase_cons_head]

theorem withdraw_eq_notFound (newId now id : String) (amount : Int)
    (st : BankState) (hlock : st.locks.contains id = false) (ha : ¬ amount ≤ 0)
    (hacct : getAccount st id = none) :
    withdraw newId now id amount st =
      (Except.error BankError.accountNotFound, st) := by
  have hl : id ∉ st.locks := by simpa using hlock
  have hfind : st.accounts.find? (fun a => a.id == id) = none := hacct
  simp [withdraw, getAccount, hl, ha, hfind, List.erase_cons_head]

theorem withdraw_eq_insufficient (newId now id : String) (amount : Int)
    (st : BankState) (acct : Account) (hlock : st.locks.contains id = false)
    (ha : ¬ amount ≤ 0) (hacct : getAccount st id = some acct)
    (hbal : acct.balance < amount) :
    withdraw newId now id amount st =
      (Except.error BankError.insufficientFunds, st) := by
  have hl : id ∉ st.locks := by simpa using hlock
  have hfind : st.accounts.find? (fun a => a.id == id) = some acct := hacct
  simp [withdraw, getAccount, hl, ha, hfind, hbal, List.erase_cons_head]

theorem withdraw_eq_ok (newId now id : String) (amount : Int) (st : BankState)
    (acct : Account) (hlock : st.locks.contains id = false) (ha : ¬ amount ≤ 0)
    (hacct : getAccount st id = some acct) (hbal : ¬ acct.balance < amount) :
    withdraw newId now id amount st =
      (Except.ok { id := newId, fromAccountId := some id, fromName := some acct.name,
                   amount := amount, type := TxType.withdraw, timestamp := now },
        { accounts := updateBalance st.accounts id (fun b => b - amount),
          transactions := st.transactions ++
            [{ id := newId, fromAccountId := some id, fromName := some acct.name,
               amount := amount, type := TxType.withdraw, timestamp := now }],
          locks := st.locks }) := by
  have hl : id ∉ st.locks := by simpa using hlock
  have hfind : st.accounts.find? (fun a => a.id == id) = some acct := hacct
  simp [withdraw, getAccount, hl, ha, hfind, hbal, List.erase_cons_head]

theorem transfer_eq_self (newId now fromId toId : String) (amount : Int)
    (st : BankState) (h : fromId = toId) :
    transfer newId now fromId toId amount st =
      (Except.error BankError.selfTransfer, st) := by
  simp [transfer, h]

theorem transfer_eq_invalid (newId now fromId toId : String) (amount : Int)
    (st : BankState) (hne : fromId ≠ toId) (ha : amount ≤ 0) :
    transfer newId now fromId toId amount st =
      (Except.error BankError.invalidAmount, st) := by
  simp [transfer, hne, ha]

theorem transfer_eq_ok (newId now fromId toId : String) (amount : Int)
    (st : BankState) (fa ta : Account) (hne : fromId ≠ toId)
    (ha : ¬ amount ≤ 0)
    (hf : st.locks.contains fromId = false)
    (ht : st.locks.contains toId = false)
    (hfrom : getAccount st fromId = some fa) (hto : getAccount st toId = some ta)
    (hbal : ¬ fa.balance < amount) :
    transfer newId now fromId toId amount st =
      (Except.ok { id := newId, fromAccountId := some fromId,
                   toAccountId := some toId, amount := amount,
                   type := TxType.transfer, timestamp := now },
        { accounts :=
            updateBalance (updateBalance st.accounts fromId (fun b => b - amount))
              toId (fun b => b + amount),
          transactions := st.transactions ++
            [{ id := newId, fromAccountId := some fromId, toAccountId := some toId,
               amount := amount, type := TxType.transfer, timestamp := now }],
          locks := st.locks }) := by
  have hf2 : fromId ∉ st.locks := by simpa using hf
  have ht2 : toId ∉ st.locks := by simpa using ht
  have hfindF : st.accounts.find? (fun a => a.id == fromId) = some fa := hfrom
  have hfindT : st.accounts.find? (fun a => a.id == toId) = some ta := hto
  have hne2 : toId ≠ fromId := Ne.symm hne
  by_cases hlt : idLt fromId toId = true
  · simp [transfer, getAccount, hne, hne2, ha, hlt, hf2, ht2, hfindF, hfindT,
      hbal, List.erase_cons_head]
  · simp [transfer, getAccount, hne, hne2, ha, hlt, hf2, ht2, hfindF, hfindT,
      hbal, List.erase_cons_head]

theorem transfer_eq_insufficient (newId now fromId toId : String) (amount : Int)
    (st : BankState) (fa ta : Account) (hne : fromId ≠ toId)
    (ha : ¬ amount ≤ 0)
    (hf : st.locks.contains fromId = false)
    (ht : st.locks.contains toId = false)
    (hfrom : getAccount st fromId = some fa) (hto : getAccount st toId = some ta)
    (hbal : fa.balance < amount) :
    transfer newId now fromId toId amount st =
      (Except.error BankError.insufficientFunds, st) := by
  have hf2 : fromId ∉ st.locks := by simpa using hf
  have ht2 : toId ∉ st.locks := by simpa using ht
  have hfindF : st.accounts.find? (fun a => a.id == fromId) = some fa := hfrom
  have hfindT : st.accounts.find? (fun a => a.id == toId) = some ta := hto
  have hne2 : toId ≠ fromId := Ne.symm hne
  by_cases hlt : idLt fromId toId = true
  · simp [transfer, getAccount, hne, hne2, ha, hlt, hf2, ht2, hfindF, hfindT,
      hbal, List.erase_cons_head]
  · simp [transfer, getAccount, hne, hne2, ha, hlt, hf2, ht2, hfindF, hfindT,
      hbal, List.erase_cons_head]

theorem transfer_eq_notFound (newId now fromId toId : String) (amount : Int)
    (st : BankState) (hne : fromId ≠ toId) (ha : ¬ amount ≤ 0)
    (hf : st.locks.contains fromId = false)
    (ht : st.locks.contains toId = false)
    (hmiss : getAccount st fromId = none ∨ getAccount st toId = none) :
    transfer newId now fromId toId amount st =
      (Except.error BankError.accountNotFound, st) := by
  have hf2 : fromId ∉ st.locks := by simpa using hf
  have ht2 : toId ∉ st.locks := by simpa using ht
  have hne2 : toId ≠ fromId := Ne.symm hne
  rcases hmiss with hm | hm
  · have hfindF : st.accounts.find? (fun a => a.id == fromId) = none := hm
    rcases hT : st.accounts.find? (fun a => a.id == toId) with _ | ta
    · by_cases hlt : idLt fromId toId = true
      · simp [transfer, getAccount, hne, hne2, ha, hlt, hf2, ht2, hfindF, hT,
          List.erase_cons_head]
      · simp [transfer, getAccount, hne, hne2, ha, hlt, hf2, ht2, hfindF, hT,
          List.erase_cons_head]
    · by_cases hlt : idLt fromId toId = true
      · simp [transfer, getAccount, hne, hne2, ha, hlt, hf2, ht2, hfindF, hT,
          List.erase_cons_head]
      · simp [transfer, getAccount, hne, hne2, ha, hlt, hf2, ht2, hfindF, hT,
          List.erase_cons_head]
  · have hfindT : st.accounts.find? (fun a => a.id == toId) = none := hm
    rcases hF : st.accounts.find? (fun a => a.id == fromId) with _ | fa
    · by_cases hlt : idLt fromId toId = true
      · simp [transfer, getAccount, hne, hne2, ha, hlt, hf2, ht2, hF, hfindT,
          List.erase_cons_head]
      · simp [transfer, getAccount, hne, hne2, ha, hlt, hf2, ht2, hF, hfindT,
          List.erase_cons_head]
    · by_cases hlt : idLt fromId toId = true
      · simp [transfer, getAccount, hne, hne2, ha, hlt, hf2, ht2, hF, hfindT,
          List.erase_cons_head]
      · simp [transfer, getAccount, hne, hne2, ha, hlt, hf2, ht2, hF, hfindT,
          List.erase_cons_head]

/-- Whether an operation result is a success. -/
def exceptOk {α : Type} : Except BankError α → Bool
  | Except.ok _ => true
  | Except.error _ => false

theorem step_create (st : BankState) (newId name : String) (bal : Int) :
    step st (Op.create newId name bal) =
      (exceptOk (createAccount newId name bal st).1,
        (createAccount newId name bal st).2) := by
  simp only [step]
  rcases h : createAccount newId name bal st with ⟨r, s⟩
  cases r <;> rfl

theorem step_deposit (st : BankState) (newId now id : String) (amount : Int) :
    step st (Op.deposit newId now id amount) =
      (exceptOk (deposit newId now id amount st).1,
        (deposit newId now id amount st).2) := by
  simp only [step]
  rcases h : deposit newId now id amount st with ⟨r, s⟩
  cases r <;> rfl

theorem step_withdraw (st : BankState) (newId now id : String) (amount : Int) :
    step st (Op.withdraw newId now id amount) =
      (exceptOk (withdraw newId now id amount st).1,
        (withdraw newId now id amount st).2) := by
  simp only [step]
  rcases h : withdraw newId now id amount st with ⟨r, s⟩
  cases r <;> rfl

theorem step_transfer (st : BankState) (newId now fromId toId : String)
    (amount : Int) :
    step st (Op.transfer newId now fromId toId amount) =
      (exceptOk (transfer newId now fromId toId amount st).1,
        (transfer newId now fromId toId amount st).2) := by
  simp only [step]
  rcases h : transfer newId now fromId toId amount st with ⟨r, s⟩
  cases r <;> rfl

theorem createAccount_dichotomy (newId name : String) (bal : Int)
    (st : BankState) :
    ((∃ e, (createAccount newId name bal st).1 = Except.error e) ∧
      (createAccount newId name bal st).2 = st)
    ∨ (¬ bal < 0 ∧
        (∃ r, (createAccount newId name bal st).1 = Except.ok r) ∧
        (createAccount newId name bal st).2.accounts =
          setAccount st.accounts { id := newId, name := name, balance := bal } ∧
        (createAccount newId name bal st).2.transactions = st.transactions) := by
  by_cases hb : bal < 0
  · left
    rw [createAccount_eq_invalid newId name bal st hb]
    exact ⟨⟨_, rfl⟩, rfl⟩
  · right
    rw [createAccount_eq_ok newId name bal st hb]
    exact ⟨hb, ⟨_, rfl⟩, rfl, rfl⟩

theorem deposit_dichotomy (newId now id : String) (amount : Int)
    (st : BankState) :
    ((∃ e, (deposit newId now id amount st).1 = Except.error e) ∧
      (deposit newId now id amount st).2.accounts = st.accounts ∧
      (deposit newId now id amount st).2.transactions = st.transactions)
    ∨ (∃ acct, getAccount st id = some acct ∧ 0 < amount ∧
        (deposit newId now id amount st).2.accounts =
          updateBalance st.accounts id (fun b => b + amount) ∧
        ∃ r, (deposit newId now id amount st).1 = Except.ok r ∧
          (deposit newId now id amount st).2.transactions =
            st.transactions ++ [r]) := by
  by_cases h1 : st.locks.contains id = true
  · left
    have h1m : id ∈ st.locks := by simpa using h1
    refine ⟨⟨BankError.busy, ?_⟩, ?_, ?_⟩ <;>
      simp [deposit, h1m]
  · have h1f : st.locks.contains id = false := by simpa using h1
    by_cases h2 : amount ≤ 0
    · left
      rw [deposit_eq_invalid newId now id amount st h1f h2]
      exact ⟨⟨_, rfl⟩, rfl, rfl⟩
    · rcases hA : getAccount st id with _ | acct
      · left
        rw [deposit_eq_notFound newId now id amount st h1f h2 hA]
        exact ⟨⟨_, rfl⟩, rfl, rfl⟩
      · right
        refine ⟨acct, rfl, by omega, ?_, ?_⟩
        · rw [deposit_eq_ok newId now id amount st acct h1f h2 hA]
        · rw [deposit_eq_ok newId now id amount st acct h1f h2 hA]
          exact ⟨_, rfl, rfl⟩

theorem withdraw_dichotomy (newId now id : String) (amount : Int)
    (st : BankState) :
    ((∃ e, (withdraw newId now id amount st).1 = Except.error e) ∧
      (withdraw newId now id amount st).2.accounts = st.accounts ∧
      (withdraw newId now id amount st).2.transactions = st.transactions)
    ∨ (∃ acct, getAccount st id = some acct ∧ 0 < amount ∧
        ¬ acct.balance < amount ∧
        (withdraw newId now id amount st).2.accounts =
          updateBalance st.accounts id (fun b => b - amount) ∧
        ∃ r, (withdraw newId now id amount st).1 = Except.ok r ∧
          (withdraw newId now id amount st).2.transactions =
            st.transactions ++ [r]) := by
  by_cases h1 : st.locks.contains id = true
  · left
    have h1m : id ∈ st.locks := by simpa using h1
    refine ⟨⟨BankError.busy, ?_⟩, ?_, ?_⟩ <;>
      simp [withdraw, h1m]
  · have h1f : st.locks.contains id = false := by simpa using h1
    by_cases h2 : amount ≤ 0
    · left
      rw [withdraw_eq_invalid newId now id amount st h1f h2]
      exact ⟨⟨_, rfl⟩, rfl, rfl⟩
    · rcases hA : getAccount st id with _ | acct
      · left
        rw [withdraw_eq_notFound newId now id amount st h1f h2 hA]
        exact ⟨⟨_, rfl⟩, rfl, rfl⟩
      · by_cases hbal : acct.balance < amount
        · left
          rw [withdraw_eq_insufficient newId now id amount st acct h1f h2 hA hbal]
          exact ⟨⟨_, rfl⟩, rfl, rfl⟩
        · right
          refine ⟨acct, rfl, by omega, hbal, ?_, ?_⟩
          · rw [withdraw_eq_ok newId now id amount st acct h1f h2 hA hbal]
          · rw [withdraw_eq_ok newId now id amount st acct h1f h2 hA hbal]
            exact ⟨_, rfl, rfl⟩

theorem transfer_dichotomy_free (newId now fromId toId : String) (amount : Int)
    (st : BankState) (hself : fromId ≠ toId) (h2 : ¬ amount ≤ 0)
    (hcf : st.locks.contains fromId = false)
    (hct : st.locks.contains toId = false) :
    ((∃ e, (transfer newId now fromId toId amount st).1 = Except.error e) ∧
      (transfer newId now fromId toId amount st).2.accounts = st.accounts ∧
      (transfer newId now fromId toId amount st).2.transactions = st.transactions)
    ∨ (∃ fa ta, fromId ≠ toId ∧ 0 < amount ∧
        getAccount st fromId = some fa ∧ getAccount st toId = some ta ∧
        ¬ fa.balance < amount ∧
        (transfer newId now fromId toId amount st).2.accounts =
          updateBalance (updateBalance st.accounts fromId (fun b => b - amount))
            toId (fun b => b + amount) ∧
        ∃ r, (transfer newId now fromId toId amount st).1 = Except.ok r ∧
          (transfer newId now fromId toId amount st).2.transactions =
            st.transactions ++ [r]) := by
  rcases hF : getAccount st fromId with _ | fa
  · left
    rw [transfer_eq_notFound newId now fromId toId amount st hself h2 hcf hct
      (Or.inl hF)]
    exact ⟨⟨_, rfl⟩, rfl, rfl⟩
  · rcases hT : getAccount st toId with _ | ta
    · left
      rw [transfer_eq_notFound newId now fromId toId amount st hself h2 hcf hct
        (Or.inr hT)]
      exact ⟨⟨_, rfl⟩, rfl, rfl⟩
    · by_cases hbal : fa.balance < amount
      · left
        rw [transfer_eq_insufficient newId now fromId toId amount st fa ta
          hself h2 hcf hct hF hT hbal]
        exact ⟨⟨_, rfl⟩, rfl, rfl⟩
      · right
        refine ⟨fa, ta, hself, by omega, rfl, rfl, hbal, ?_, ?_⟩
        · rw [transfer_eq_ok newId now fromId toId amount st fa ta hself h2
            hcf hct hF hT hbal]
        · rw [transfer_eq_ok newId now fromId toId amount st fa ta hself h2
            hcf hct hF hT hbal]
          exact ⟨_, rfl, rfl⟩

theorem transfer_dichotomy (newId now fromId toId : String) (amount : Int)
    (st : BankState) :
    ((∃ e, (transfer newId now fromId toId amount st).1 = Except.error e) ∧
      (transfer newId now fromId toId amount st).2.accounts = st.accounts ∧
      (transfer newId now fromId toId amount st).2.transactions = st.transactions)
    ∨ (∃ fa ta, fromId ≠ toId ∧ 0 < amount ∧
        getAccount st fromId = some fa ∧ getAccount st toId = some ta ∧
        ¬ fa.balance < amount ∧
        (transfer newId now fromId toId amount st).2.accounts =
          updateBalance (updateBalance st.accounts fromId (fun b => b - amount))
            toId (fun b => b + amount) ∧
        ∃ r, (transfer newId now fromId toId amount st).1 = Except.ok r ∧
          (transfer newId now fromId toId amount st).2.transactions =
            st.transactions ++ [r]) := by
  by_cases hself : fromId = toId
  · left
    rw [transfer_eq_self newId now fromId toId amount st hself]
    exact ⟨⟨_, rfl⟩, rfl, rfl⟩
  · by_cases h2 : amount ≤ 0
    · left
      rw [transfer_eq_invalid newId now fromId toId amount st hself h2]
      exact ⟨⟨_, rfl⟩, rfl, rfl⟩
    · by_cases hlt : idLt fromId toId = true
      · by_cases hcf : st.locks.contains fromId = true
        · left
          have hcfm : fromId ∈ st.locks := by simpa using hcf
          refine ⟨⟨BankError.busy, ?_⟩, ?_, ?_⟩ <;>
            simp [transfer, hself, h2, hlt, hcfm]
        · by_cases hct : st.locks.contains toId = true
          · left
            have hctm : toId ∈ st.locks := by simpa using hct
            have hcfm : fromId ∉ st.locks := by simpa using hcf
            refine ⟨⟨BankError.busy, ?_⟩, ?_, ?_⟩ <;>
              simp [transfer, hself, h2, hlt, hcfm, hctm]
          · exact transfer_dichotomy_free newId now fromId toId amount st hself
              h2 (by simpa using hcf) (by simpa using hct)
      · by_cases hct : st.locks.contains toId = true
        · left
          have hctm : toId ∈ st.locks := by simpa using hct
          refine ⟨⟨BankError.busy, ?_⟩, ?_, ?_⟩ <;>
            simp [transfer, hself, h2, hlt, hctm]
        · by_cases hcf : st.locks.contains fromId = true
          · left
            have hcfm : fromId ∈ st.locks := by simpa using hcf
            have hctm : toId ∉ st.locks := by simpa using hct
            have hne2 : toId ≠ fromId := fun hh => hself hh.symm
            refine ⟨⟨BankError.busy, ?_⟩, ?_, ?_⟩ <;>
              simp [transfer, hself, hne2, h2, hlt, hcfm, hctm]
          · exact transfer_dichotomy_free newId now fromId toId amount st hself
              h2 (by simpa using hcf) (by simpa using hct)

theorem step_wf_nonneg (st : BankState) (o : Op)
    (hwf : (st.accounts.map Account.id).Nodup)
    (hnn : ∀ a ∈ st.accounts, 0 ≤ a.balance) :
    (((step st o).2.accounts.map Account.id).Nodup) ∧
      (∀ a ∈ (step st o).2.accounts, 0 ≤ a.balance) := by
  cases o with
  | create newId name bal =>
      simp only [step_create]
      rcases createAccount_dichotomy newId name bal st with
        ⟨_, hst⟩ | ⟨hb, _, hacc, _⟩
      · rw [hst]; exact ⟨hwf, hnn⟩
      · rw [hacc]
        constructor
        · exact setAccount_nodup _ _ hwf
        · exact setAccount_nonneg _ _ hnn (by simpa using not_lt.mp hb)
  | deposit newId now id amount =>
      simp only [step_deposit]
      rcases deposit_dichotomy newId now id amount st with
        ⟨_, hacc, _⟩ | ⟨acct, hA, hpos, hacc, _⟩
      · rw [hacc]; exact ⟨hwf, hnn⟩
      · rw [hacc]
        constructor
        · rw [updateBalance_map_id]; exact hwf
        · exact nonneg_updateBalance_mono _ _ _ hnn (fun b hb => by omega)
  | withdraw newId now id amount =>
      simp only [step_withdraw]
      rcases withdraw_dichotomy newId now id amount st with
        ⟨_, hacc, _⟩ | ⟨acct, hA, hpos, hbal, hacc, _⟩
      · rw [hacc]; exact ⟨hwf, hnn⟩
      · rw [hacc]
        constructor
        · rw [updateBalance_map_id]; exact hwf
        · exact nonneg_updateBalance_single _ _ _ acct hwf hA hnn (by omega)
  | transfer newId now fromId toId amount =>
      simp only [step_transfer]
      rcases transfer_dichotomy newId now fromId toId amount st with
        ⟨_, hacc, _⟩ | ⟨fa, ta, hne, hpos, hF, hT, hbal, hacc, _⟩
      · rw [hacc]; exact ⟨hwf, hnn⟩
      · rw [hacc]
        have hwf1 : ((updateBalance st.accounts fromId
            (fun b => b - amount)).map Account.id).Nodup := by
          rw [updateBalance_map_id]; exact hwf
        have hnn1 : ∀ a ∈ updateBalance st.accounts fromId
            (fun b => b - amount), 0 ≤ a.balance :=
          nonneg_updateBalance_single _ _ _ fa hwf hF hnn (by omega)
        constructor
        · rw [updateBalance_map_id, updateBalance_map_id]; exact hwf
        · exact nonneg_updateBalance_mono _ _ _ hnn1 (fun b hb => by omega)

theorem run_wf_nonneg (ops : List Op) : ∀ st : BankState,
    (st.accounts.map Account.id).Nodup →
    (∀ a ∈ st.accounts, 0 ≤ a.balance) →
    (((run st ops).accounts.map Account.id).Nodup ∧
      ∀ a ∈ (run st ops).accounts, 0 ≤ a.balance) := by
  induction ops with
  | nil =>
      intro st hwf hnn
      exact ⟨hwf, hnn⟩
  | cons o rest ih =>
      intro st hwf hnn
      have hstep := step_wf_nonneg st o hwf hnn
      simpa [run, List.foldl_cons] using ih _ hstep.1 hstep.2

theorem step_transactions_dichotomy (st : BankState) (o : Op) :
    ((step st o).1 = true ∧ isFinancial o = true ∧
      ∃ e, (step st o).2.transactions = st.transactions ++ [e])
    ∨ (((step st o).1 && isFinancial o) = false ∧
      (step st o).2.transactions = st.transactions) := by
  cases o with
  | create newId name bal =>
      right
      refine ⟨by simp [isFinancial], ?_⟩
      simp only [step_create]
      rcases createAccount_dichotomy newId name bal st with
        ⟨_, hst⟩ | ⟨_, _, _, htx⟩
      · rw [hst]
      · exact htx
  | deposit newId now id amount =>
      simp only [step_deposit]
      rcases deposit_dichotomy newId now id amount st with
        ⟨⟨e, he⟩, _, htx⟩ | ⟨acct, hA, hpos, hacc, r, hr, htx⟩
      · right
        refine ⟨?_, htx⟩
        simp [exceptOk, he]
      · left
        refine ⟨by simp [exceptOk, hr], by simp [isFinancial], ⟨r, htx⟩⟩
  | withdraw newId now id amount =>
      simp only [step_withdraw]
      rcases withdraw_dichotomy newId now id amount st with
        ⟨⟨e, he⟩, _, htx⟩ | ⟨acct, hA, hpos, hbal, hacc, r, hr, htx⟩
      · right
        refine ⟨?_, htx⟩
        simp [exceptOk, he]
      · left
        refine ⟨by simp [exceptOk, hr], by simp [isFinancial], ⟨r, htx⟩⟩
  | transfer newId now fromId toId amount =>
      simp only [step_transfer]
      rcases transfer_dichotomy newId now fromId toId amount st with
        ⟨⟨e, he⟩, _, htx⟩ | ⟨fa, ta, hne, hpos, hF, hT, hbal, hacc, r, hr, htx⟩
      · right
        refine ⟨?_, htx⟩
        simp [exceptOk, he]
      · left
        refine ⟨by simp [exceptOk, hr], by simp [isFinancial], ⟨r, htx⟩⟩

theorem run_transactions (ops : List Op) : ∀ st : BankState,
    (run st ops).transactions.length =
      st.transactions.length + successCount st ops ∧
    ∃ rest, (run st ops).transactions = st.transactions ++ rest := by
  induction ops with
  | nil =>
      intro st
      exact ⟨by simp [run, successCount], ⟨[], by simp [run]⟩⟩
  | cons o rest ih =>
      intro st
      rcases ih (step st o).2 with ⟨hlen, tail, htail⟩
      have hrun : run st (o :: rest) = run (step st o).2 rest := by
        simp [run, List.foldl_cons]
      rcases step_transactions_dichotomy st o with
        ⟨hs, hfin, e, he⟩ | ⟨hcond, he⟩
      · constructor
        · rw [hrun, hlen, he]
          simp only [successCount, hs, hfin, Bool.and_self, if_pos]
          simp
          omega
        · refine ⟨[e] ++ tail, ?_⟩
          rw [hrun, htail, he, List.append_assoc]
      · constructor
        · rw [hrun, hlen, he]
          simp only [successCount, hcond]
          simp
        · refine ⟨tail, ?_⟩
          rw [hrun, htail, he]

/-- C4: transfer atomicity on error — for every transfer call that fails with
one of the four validation errors (non-positive amount, self transfer, unknown
account, insufficient funds), the entire service state — accounts, transaction
log and lock set — is exactly as it was before the call. (The fail-fast `Busy`
lock-contention error is a separate, optional error kind in the spec and is
excluded here.) -/
theorem transfer_error_atomic (newId now fromId toId : String) (amount : Int)
    (st : BankState) (e : BankError)
    (h : (transfer newId now fromId toId amount st).1 = Except.error e)
    (hbusy : e ≠ BankError.busy) :
    (transfer newId now fromId toId amount st).2 = st := by
  by_cases hself : fromId = toId
  · rw [transfer_eq_self newId now fromId toId amount st hself]
  · by_cases h2 : amount ≤ 0
    · rw [transfer_eq_invalid newId now fromId toId amount st hself h2]
    · by_cases hlt : idLt fromId toId = true
      · by_cases hcf : st.locks.contains fromId = true
        · exfalso
          have hcfm : fromId ∈ st.locks := by simpa using hcf
          have hb : (transfer newId now fromId toId amount st).1 =
              Except.error BankError.busy := by
            simp [transfer, hself, h2, hlt, hcfm]
          rw [h] at hb
          injection hb with hb
          exact hbusy hb
        · by_cases hct : st.locks.contains toId = true
          · exfalso
            have hcfm : fromId ∉ st.locks := by simpa using hcf
            have hctm : toId ∈ st.locks := by simpa using hct
            have hb : (transfer newId now fromId toId amount st).1 =
                Except.error BankError.busy := by
              simp [transfer, hself, h2, hlt, hcfm, hctm]
            rw [h] at hb
            injection hb with hb
            exact hbusy hb
          · have hcf2 : st.locks.contains fromId = false := by simpa using hcf
            have hct2 : st.locks.contains toId = false := by simpa using hct
            rcases hF : getAccount st fromId with _ | fa
            · rw [transfer_eq_notFound newId now fromId toId amount st hself h2
                hcf2 hct2 (Or.inl hF)]
            · rcases hT : getAccount st toId with _ | ta
              · rw [transfer_eq_notFound newId now fromId toId amount st hself
                  h2 hcf2 hct2 (Or.inr hT)]
              · by_cases hbal : fa.balance < amount
                · rw [transfer_eq_insufficient newId now fromId toId amount st
                    fa ta hself h2 hcf2 hct2 hF hT hbal]
                · exfalso
                  rw [transfer_eq_ok newId now fromId toId amount st fa ta
                    hself h2 hcf2 hct2 hF hT hbal] at h
                  simp at h
      · by_cases hct : st.locks.contains toId = true
        · exfalso
          have hctm : toId ∈ st.locks := by simpa using hct
          have hb : (transfer newId now fromId toId amount st).1 =
              Except.error BankError.busy := by
            simp [transfer, hself, h2, hlt, hctm]
          rw [h] at hb
          injection hb with hb
          exact hbusy hb
        · by_cases hcf : st.locks.contains fromId = true
          · exfalso
            have hcfm : fromId ∈ st.locks := by simpa using hcf
            have hctm : toId ∉ st.locks := by simpa using hct
            have hne2 : toId ≠ fromId := fun hh => hself hh.symm
            have hb : (transfer newId now fromId toId amount st).1 =
                Except.error BankError.busy := by
              simp [transfer, hself, hne2, h2, hlt, hcfm, hctm]
            rw [h] at hb
            injection hb with hb
            exact hbusy hb
          · have hcf2 : st.locks.contains fromId = false := by simpa using hcf
            have hct2 : st.locks.contains toId = false := by simpa using hct
            rcases hF : getAccount st fromId with _ | fa
            · rw [transfer_eq_notFound newId now fromId toId amount st hself h2
                hcf2 hct2 (Or.inl hF)]
            · rcases hT : getAccount st toId with _ | ta
              · rw [transfer_eq_notFound newId now fromId toId amount st hself
                  h2 hcf2 hct2 (Or.inr hT)]
              · by_cases hbal : fa.balance < amount
                · rw [transfer_eq_insufficient newId now fromId toId amount st
                    fa ta hself h2 hcf2 hct2 hF hT hbal]
                · exfalso
                  rw [transfer_eq_ok newId now fromId toId amount st fa ta
                    hself h2 hcf2 hct2 hF hT hbal] at h
                  simp at h

/-- C4 witness: a transfer of 1000 from Alice (balance 100) fails with
`InsufficientFunds` and leaves the state exactly unchanged. -/
theorem transfer_error_atomic_witness :
    (transfer "t" "n" "a" "b" 1000 aliceBob).2 = aliceBob :=
  transfer_error_atomic "t" "n" "a" "b" 1000 aliceBob
    BankError.insufficientFunds rfl (by decide)

/-- C5: withdraw correctness — with the account's lock free, a withdraw with
non-positive amount fails `InvalidAmount` leaving the state unchanged; on an
unknown id it fails `AccountNotFound` unchanged; on an existing account with
positive amount it fails `InsufficientFunds` exactly when the balance is less
than the amount (state unchanged), and otherwise decreases the balance by
exactly the amount and appends and returns one withdraw entry with
`fromAccountId = id` and the given amount. -/
theorem withdraw_correct (newId now id : String) (amount : Int)
    (st : BankState) (hlock : st.locks.contains id = false) :
    (amount ≤ 0 →
      withdraw newId now id amount st =
        (Except.error BankError.invalidAmount, st))
  ∧ (¬ amount ≤ 0 → getAccount st id = none →
      withdraw newId now id amount st =
        (Except.error BankError.accountNotFound, st))
  ∧ (∀ acct, ¬ amount ≤ 0 → getAccount st id = some acct →
      (acct.balance < amount →
        withdraw newId now id amount st =
          (Except.error BankError.insufficientFunds, st))
    ∧ (¬ acct.balance < amount →
        ∃ st2, withdraw newId now id amount st =
            (Except.ok { id := newId, fromAccountId := some id,
                         fromName := some acct.name, amount := amount,
                         type := TxType.withdraw, timestamp := now }, st2) ∧
          st2.transactions = st.transactions ++
            [{ id := newId, fromAccountId := some id,
               fromName := some acct.name, amount := amount,
               type := TxType.withdraw, timestamp := now }] ∧
          balanceOf st2 id = some (acct.balance - amount) ∧
          st2.locks = st.locks)) := by
  refine ⟨?_, ?_, ?_⟩
  · intro ha
    exact withdraw_eq_invalid newId now id amount st hlock ha
  · intro ha hA
    exact withdraw_eq_notFound newId now id amount st hlock ha hA
  · intro acct ha hA
    constructor
    · intro hbal
      exact withdraw_eq_insufficient newId now id amount st acct hlock ha hA hbal
    · intro hbal
      have hAfind : st.accounts.find? (fun a => a.id == id) = some acct := hA
      refine ⟨_, withdraw_eq_ok newId now id amount st acct hlock ha hA hbal,
        rfl, ?_, rfl⟩
      simp only [balanceOf, getAccount]
      rw [find_updateBalance_self, hAfind]
      rfl

/-- C5 witness: withdrawing 1000 from Alice (balance 100) fails with
`InsufficientFunds` and leaves the state unchanged. -/
theorem withdraw_correct_witness :
    withdraw "w" "n" "a" 1000 aliceBob =
      (Except.error BankError.insufficientFunds, aliceBob) :=
  ((withdraw_correct "w" "n" "a" 1000 aliceBob (by decide)).2.2
    { id := "a", name := "Alice", balance := 100 }
    (by decide) rfl).1 (by decide)

/-- C7 counterexample: in the source, `transfer` checks `fromId === toId`
before `amount <= 0`, so a self-transfer of a non-positive amount fails with
`SelfTransfer`, not with `InvalidAmount` as the claim states. -/
theorem transfer_nonpositive_counterexample :
    (transfer "t" "n" "x" "x" 0 ⟨[], [], []⟩).1 =
      Except.error BankError.selfTransfer ∧
    BankError.selfTransfer ≠ BankError.invalidAmount :=
  ⟨rfl, by decide⟩

/-- C7 (amended): for every transfer call with non-positive amount the
self-transfer check runs first — if the two ids are equal the call fails
`SelfTransfer`, otherwise it fails `InvalidAmount` — and in both cases the
call returns before any lock acquisition, leaving the entire state (including
the lock set) unchanged. -/
theorem transfer_nonpositive_order (newId now fromId toId : String)
    (amount : Int) (st : BankState) (ha : amount ≤ 0) :
    (fromId = toId →
      transfer newId now fromId toId amount st =
        (Except.error BankError.selfTransfer, st))
  ∧ (fromId ≠ toId →
      transfer newId now fromId toId amount st =
        (Except.error BankError.invalidAmount, st)) :=
  ⟨fun h => transfer_eq_self newId now fromId toId amount st h,
   fun h => transfer_eq_invalid newId now fromId toId amount st h ha⟩

/-- C7 witness: a transfer of 0 between two distinct ids fails with
`InvalidAmount` and the state is unchanged. -/
theorem transfer_nonpositive_order_witness :
    transfer "t" "n" "x" "y" 0 ⟨[], [], []⟩ =
      (Except.error BankError.invalidAmount, ⟨[], [], []⟩) :=
  (transfer_nonpositive_order "t" "n" "x" "y" 0 ⟨[], [], []⟩ (by decide)).2
    (by decide)

/-- C3: evaluation of the code at the failing input. In `lockedBob`, account
`b`'s lock is held by a concurrent in-flight operation. The call
`transfer("a", "b", 5)` sorts the ids, acquires the lock on `a` (the
lexicographically first id), then fails `Busy` acquiring the lock on `b` —
and because both `acquireLock` calls sit before the try/finally block, the
finally clause never runs: the lock on `a` acquired by this very call is
still held after the call fails, contradicting the claimed guaranteed release
on every exit path. -/
theorem transfer_lock_leak :
    (transfer "t" "n" "a" "b" 5 lockedBob).1 = Except.error BankError.busy ∧
    "a" ∉ lockedBob.locks ∧
    "a" ∈ (transfer "t" "n" "a" "b" 5 lockedBob).2.locks :=
  ⟨rfl, by decide, by decide⟩

/-- C2: non-negative balance invariant — starting from any state whose Map
keys are unique and whose balances are all non-negative, after any sequence
of createAccount / deposit / withdraw / transfer calls (successful or
failed), every account's balance is still non-negative. -/
theorem nonneg_invariant (st : BankState) (ops : List Op)
    (hwf : (st.accounts.map Account.id).Nodup)
    (hnn : ∀ a ∈ st.accounts, 0 ≤ a.balance) :
    ∀ a ∈ (run st ops).accounts, 0 ≤ a.balance :=
  (run_wf_nonneg ops st hwf hnn).2

/-- C2 witness: after a run with successful and failing operations of all
four kinds starting from the empty state, Alice's account is present with a
non-negative balance. -/
theorem nonneg_invariant_witness :
    ({ id := "a", name := "Alice", balance := 100 } : Account) ∈
      (run ⟨[], [], []⟩
        [Op.create "a" "Alice" 100, Op.create "b" "Bob" 50,
         Op.deposit "t1" "n" "a" 50, Op.withdraw "t2" "n" "a" 1000,
         Op.withdraw "t3" "n" "a" 30, Op.transfer "t4" "n" "a" "b" 20,
         Op.transfer "t5" "n" "a" "a" 5, Op.deposit "t6" "n" "zz" 5,
         Op.create "c" "Carol" (-3)]).accounts ∧
    0 ≤ ({ id := "a", name := "Alice", balance := 100 } : Account).balance :=
  ⟨by decide,
   nonneg_invariant ⟨[], [], []⟩
    [Op.create "a" "Alice" 100, Op.create "b" "Bob" 50,
     Op.deposit "t1" "n" "a" 50, Op.withdraw "t2" "n" "a" 1000,
     Op.withdraw "t3" "n" "a" 30, Op.transfer "t4" "n" "a" "b" 20,
     Op.transfer "t5" "n" "a" "a" 5, Op.deposit "t6" "n" "zz" 5,
     Op.create "c" "Carol" (-3)]
    (by decide) (by decide)
    { id := "a", name := "Alice", balance := 100 } (by decide)⟩

/-- Characterization of the log entry returned by any successful transfer: it
is the single appended entry and it references both accounts, carrying
`fromAccountId = fromId` and `toAccountId = toId`. -/
theorem transfer_ok_log (newId now fromId toId : String) (amount : Int)
    (st : BankState) (r : TransactionLog)
    (h : (transfer newId now fromId toId amount st).1 = Except.ok r) :
    r.fromAccountId = some fromId ∧ r.toAccountId = some toId ∧
    (transfer newId now fromId toId amount st).2.transactions =
      st.transactions ++ [r] := by
  by_cases hself : fromId = toId
  · rw [transfer_eq_self newId now fromId toId amount st hself] at h
    simp at h
  · by_cases h2 : amount ≤ 0
    · rw [transfer_eq_invalid newId now fromId toId amount st hself h2] at h
      simp at h
    · by_cases hlt : idLt fromId toId = true
      · by_cases hcf : st.locks.contains fromId = true
        · exfalso
          have hcfm : fromId ∈ st.locks := by simpa using hcf
          have hb : (transfer newId now fromId toId amount st).1 =
              Except.error BankError.busy := by
            simp [transfer, hself, h2, hlt, hcfm]
          rw [h] at hb
          simp at hb
        · by_cases hct : st.locks.contains toId = true
          · exfalso
            have hcfm : fromId ∉ st.locks := by simpa using hcf
            have hctm : toId ∈ st.locks := by simpa using hct
            have hb : (transfer newId now fromId toId amount st).1 =
                Except.error BankError.busy := by
              simp [transfer, hself, h2, hlt, hcfm, hctm]
            rw [h] at hb
            simp at hb
          · have hcf2 : st.locks.contains fromId = false := by simpa using hcf
            have hct2 : st.locks.contains toId = false := by simpa using hct
            rcases hF : getAccount st fromId with _ | fa
            · rw [transfer_eq_notFound newId now fromId toId amount st hself h2
                hcf2 hct2 (Or.inl hF)] at h
              simp at h
            · rcases hT : getAccount st toId with _ | ta
              · rw [transfer_eq_notFound newId now fromId toId amount st hself
                  h2 hcf2 hct2 (Or.inr hT)] at h
                simp at h
              · by_cases hbal : fa.balance < amount
                · rw [transfer_eq_insufficient newId now fromId toId amount st
                    fa ta hself h2 hcf2 hct2 hF hT hbal] at h
                  simp at h
                · rw [transfer_eq_ok newId now fromId toId amount st fa ta
                    hself h2 hcf2 hct2 hF hT hbal] at h ⊢
                  simp at h
                  subst h
                  exact ⟨rfl, rfl, rfl⟩
      · by_cases hct : st.locks.contains toId = true
        · exfalso
          have hctm : toId ∈ st.locks := by simpa using hct
          have hb : (transfer newId now fromId toId amount st).1 =
              Except.error BankError.busy := by
            simp [transfer, hself, h2, hlt, hctm]
          rw [h] at hb
          simp at hb
        · by_cases hcf : st.locks.contains fromId = true
          · exfalso
            have hcfm : fromId ∈ st.locks := by simpa using hcf
            have hctm : toId ∉ st.locks := by simpa using hct
            have hne2 : toId ≠ fromId := fun hh => hself hh.symm
            have hb : (transfer newId now fromId toId amount st).1 =
                Except.error BankError.busy := by
              simp [transfer, hself, hne2, h2, hlt, hcfm, hctm]
            rw [h] at hb
            simp at hb
          · have hcf2 : st.locks.contains fromId = false := by simpa using hcf
            have hct2 : st.locks.contains toId = false := by simpa using hct
            rcases hF : getAccount st fromId with _ | fa
            · rw [transfer_eq_notFound newId now fromId toId amount st hself h2
                hcf2 hct2 (Or.inl hF)] at h
              simp at h
            · rcases hT : getAccount st toId with _ | ta
              · rw [transfer_eq_notFound newId now fromId toId amount st hself
                  h2 hcf2 hct2 (Or.inr hT)] at h
                simp at h
              · by_cases hbal : fa.balance < amount
                · rw [transfer_eq_insufficient newId now fromId toId amount st
                    fa ta hself h2 hcf2 hct2 hF hT hbal] at h
                  simp at h
                · rw [transfer_eq_ok newId now fromId toId amount st fa ta
                    hself h2 hcf2 hct2 hF hT hbal] at h ⊢
                  simp at h
                  subst h
                  exact ⟨rfl, rfl, rfl⟩

/-- C6: log completeness — every successful deposit, withdraw or transfer
appends exactly one entry to the global log (a transfer exactly one, not
two), failed operations and account creation append none, after a run the log
has grown by exactly the number of successful financial operations, the
log is append-only (the prior log is a prefix of the new one, so no existing
entry is edited or removed), and a successful transfer's single entry
references both accounts: its `fromAccountId` is the source id and its
`toAccountId` is the destination id. -/
theorem log_completeness (st : BankState) (ops : List Op) :
    (∀ s : BankState, ∀ o : Op, (step s o).1 = true → isFinancial o = true →
      ∃ e, (step s o).2.transactions = s.transactions ++ [e])
  ∧ (∀ s : BankState, ∀ o : Op,
      ((step s o).1 = false ∨ isFinancial o = false) →
      (step s o).2.transactions = s.transactions)
  ∧ (run st ops).transactions.length =
      st.transactions.length + successCount st ops
  ∧ (∃ rest, (run st ops).transactions = st.transactions ++ rest)
  ∧ (∀ s : BankState, ∀ newId now fromId toId : String, ∀ amount : Int,
      ∀ r : TransactionLog,
      (transfer newId now fromId toId amount s).1 = Except.ok r →
      r.fromAccountId = some fromId ∧ r.toAccountId = some toId ∧
      (transfer newId now fromId toId amount s).2.transactions =
        s.transactions ++ [r]) := by
  refine ⟨?_, ?_, (run_transactions ops st).1, (run_transactions ops st).2,
    fun s newId now fromId toId amount r h =>
      transfer_ok_log newId now fromId toId amount s r h⟩
  · intro s o hs hf
    rcases step_transactions_dichotomy s o with ⟨_, _, e, he⟩ | ⟨hc, _⟩
    · exact ⟨e, he⟩
    · rw [hs, hf] at hc
      simp at hc
  · intro s o hor
    rcases step_transactions_dichotomy s o with ⟨hs, hf, _⟩ | ⟨_, he⟩
    · rcases hor with hx | hx
      · rw [hs] at hx; simp at hx
      · rw [hf] at hx; simp at hx
    · exact he

/-- C6 witness: a successful transfer of 20 from Alice to Bob on the sample
state appends exactly its returned entry, and that single entry references
both accounts. -/
theorem log_completeness_witness :
    ({ id := "t1", fromAccountId := some "a", toAccountId := some "b",
       amount := 20, type := TxType.transfer,
       timestamp := "n" } : TransactionLog).fromAccountId = some "a" ∧
    ({ id := "t1", fromAccountId := some "a", toAccountId := some "b",
       amount := 20, type := TxType.transfer,
       timestamp := "n" } : TransactionLog).toAccountId = some "b" ∧
    (transfer "t1" "n" "a" "b" 20 aliceBob).2.transactions =
      aliceBob.transactions ++
        [{ id := "t1", fromAccountId := some "a", toAccountId := some "b",
           amount := 20, type := TxType.transfer, timestamp := "n" }] :=
  (log_completeness aliceBob []).2.2.2.2 aliceBob "t1" "n" "a" "b" 20
    { id := "t1", fromAccountId := some "a", toAccountId := some "b",
      amount := 20, type := TxType.transfer, timestamp := "n" }
    (by rfl)

/-- C8: transaction listing — `getTransactionLogs(id)` fails `AccountNotFound`
exactly when no account has that id; otherwise it returns exactly the log
entries whose `fromAccountId` or `toAccountId` equals `id`, as a sublist of
the global log, i.e. in the order the entries were appended. -/
theorem transaction_listing (st : BankState) (id : String) :
    ((∀ a ∈ st.accounts, a.id ≠ id) →
      getTransactionLogs st id = Except.error BankError.accountNotFound)
  ∧ ((∃ a ∈ st.accounts, a.id = id) →
      ∃ logs, getTransactionLogs st id = Except.ok logs ∧
        logs = st.transactions.filter
          (fun t => t.fromAccountId == some id || t.toAccountId == some id) ∧
        List.Sublist logs st.transactions ∧
        ∀ t, t ∈ logs ↔ (t ∈ st.transactions ∧
          (t.fromAccountId = some id ∨ t.toAccountId = some id))) := by
  constructor
  · intro h
    have hany : (st.accounts.any fun a => a.id == id) = false := by
      rw [List.any_eq_false]
      intro a ha
      simpa using h a ha
    simp [getTransactionLogs, hany]
  · rintro ⟨a, ha, rfl⟩
    have hany : (st.accounts.any fun x => x.id == a.id) = true := by
      rw [List.any_eq_true]
      exact ⟨a, ha, by simp⟩
    refine ⟨_, by simp [getTransactionLogs, hany], rfl,
      List.filter_sublist _, ?_⟩
    intro t
    simp [List.mem_filter]

/-- C8 witness: on the sample state with two log entries, listing account
`a`'s transactions returns exactly the entry touching `a`. -/
theorem transaction_listing_witness :
    ∃ logs, getTransactionLogs logsState "a" = Except.ok logs ∧
      logs = logsState.transactions.filter
        (fun t => t.fromAccountId == some "a" || t.toAccountId == some "a") ∧
      List.Sublist logs logsState.transactions ∧
      ∀ t, t ∈ logs ↔ (t ∈ logsState.transactions ∧
        (t.fromAccountId = some "a" ∨ t.toAccountId = some "a")) :=
  (transaction_listing logsState "a").2
    ⟨{ id := "a", name := "Alice", balance := 150 }, by decide, rfl⟩

/-- C9: account creation — `createAccount` fails `InvalidAmount` exactly when
the initial balance is negative (zero succeeds); on success, with a fresh
uuid from the external generator, it stores and returns a new account with
that id, the given name and the given balance, appended to the Map, without
touching the transaction log or the lock set, and with no duplicate-name
restriction (the name plays no role in the preconditions). -/
theorem createAccount_correct (newId name : String) (balance : Int)
    (st : BankState) :
    (balance < 0 →
      createAccount newId name balance st =
        (Except.error BankError.invalidAmount, st))
  ∧ (0 ≤ balance → newId ∉ st.accounts.map Account.id →
      ∃ acct st2, createAccount newId name balance st = (Except.ok acct, st2) ∧
        acct.id = newId ∧ acct.name = name ∧ acct.balance = balance ∧
        st2.accounts = st.accounts ++ [acct] ∧
        st2.transactions = st.transactions ∧ st2.locks = st.locks ∧
        acct.id ∉ st.accounts.map Account.id) := by
  constructor
  · exact createAccount_eq_invalid newId name balance st
  · intro h0 hfresh
    have hb : ¬ balance < 0 := not_lt.mpr h0
    have hany : (st.accounts.any fun a => a.id == newId) = false := by
      rw [List.any_eq_false]
      intro a ha
      simp only [beq_iff_eq]
      intro he
      exact hfresh (he ▸ List.mem_map_of_mem Account.id ha)
    refine ⟨{ id := newId, name := name, balance := balance }, _,
      createAccount_eq_ok newId name balance st hb,
      rfl, rfl, rfl, ?_, rfl, rfl, hfresh⟩
    simp [setAccount, hany]

/-- C9 witness: creating a second account named "Alice" with initial balance
0 on the sample state succeeds, appends it to the Map and leaves the log and
lock set unchanged. -/
theorem createAccount_correct_witness :
    ∃ acct st2, createAccount "c" "Alice" 0 aliceBob = (Except.ok acct, st2) ∧
      acct.id = "c" ∧ acct.name = "Alice" ∧ acct.balance = 0 ∧
      st2.accounts = aliceBob.accounts ++ [acct] ∧
      st2.transactions = aliceBob.transactions ∧
      st2.locks = aliceBob.locks ∧
      acct.id ∉ aliceBob.accounts.map Account.id :=
  (createAccount_correct "c" "Alice" 0 aliceBob).2 (by decide) (by decide)

/-- C10: read operations are pure — `getAccount`, `accountExists`,
`getAllAccounts`, `getAllTransactions` and `getTransactionLogs` leave the
whole service state (accounts, log and lock set) unchanged, and `getAccount`
on an unknown id returns absent without error. -/
theorem reads_pure (st : BankState) (id name : String) :
    (getAccountOp st id).2 = st ∧ (accountExistsOp st name).2 = st ∧
    (getAllAccountsOp st).2 = st ∧ (getAllTransactionsOp st).2 = st ∧
    (getTransactionLogsOp st id).2 = st ∧
    ((∀ a ∈ st.accounts, a.id ≠ id) → (getAccountOp st id).1 = none) := by
  refine ⟨rfl, rfl, rfl, rfl, rfl, ?_⟩
  intro h
  simp only [getAccountOp, getAccount]
  rw [List.find?_eq_none]
  intro a ha
  simpa using h a ha

/-- C10 witness: a lookup of an unknown id on the sample state returns absent
and leaves the state unchanged. -/
theorem reads_pure_witness :
    (getAccountOp aliceBob "zz").1 = none ∧
    (getAccountOp aliceBob "zz").2 = aliceBob :=
  ⟨(reads_pure aliceBob "zz" "nm").2.2.2.2.2 (by decide),
   (reads_pure aliceBob "zz" "nm").1⟩

/-- C1: conservation law — on a state with unique Map keys, every successful
transfer of amount `a` from X to Y decreases X's balance by exactly `a`,
increases Y's balance by exactly `a`, keeps the sum of X's and Y's balances
(and the global sum) unchanged, and leaves every uninvolved account's balance
untouched; every successful deposit increases the global sum of balances by
exactly its amount and every successful withdraw decreases it by exactly its
amount, in both cases leaving every other account's balance unchanged. -/
theorem conservation_law (st : BankState)
    (hwf : (st.accounts.map Account.id).Nodup) :
    (∀ newId now fromId toId amount tlog st2,
        transfer newId now fromId toId amount st = (Except.ok tlog, st2) →
        ∃ bf bt, balanceOf st fromId = some bf ∧ balanceOf st toId = some bt ∧
          balanceOf st2 fromId = some (bf - amount) ∧
          balanceOf st2 toId = some (bt + amount) ∧
          (bf - amount) + (bt + amount) = bf + bt ∧
          sumBalances st2 = sumBalances st ∧
          ∀ otherId, otherId ≠ fromId → otherId ≠ toId →
            balanceOf st2 otherId = balanceOf st otherId)
  ∧ (∀ newId now id amount tlog st2,
        deposit newId now id amount st = (Except.ok tlog, st2) →
        sumBalances st2 = sumBalances st + amount ∧
        ∀ otherId, otherId ≠ id →
          balanceOf st2 otherId = balanceOf st otherId)
  ∧ (∀ newId now id amount tlog st2,
        withdraw newId now id amount st = (Except.ok tlog, st2) →
        sumBalances st2 = sumBalances st - amount ∧
        ∀ otherId, otherId ≠ id →
          balanceOf st2 otherId = balanceOf st otherId) := by
  refine ⟨?_, ?_, ?_⟩
  · intro newId now fromId toId amount tlog st2 heq
    rcases transfer_dichotomy newId now fromId toId amount st with
      ⟨⟨e, he⟩, _, _⟩ | ⟨fa, ta, hne, hpos, hF, hT, hbal, hacc, r, hr, htx⟩
    · rw [heq] at he
      simp at he
    · have hne2 : toId ≠ fromId := Ne.symm hne
      have hFfind : st.accounts.find? (fun a => a.id == fromId) = some fa := hF
      have hTfind : st.accounts.find? (fun a => a.id == toId) = some ta := hT
      have hacc2 : st2.accounts =
          updateBalance (updateBalance st.accounts fromId (fun b => b - amount))
            toId (fun b => b + amount) := by
        rw [← hacc, heq]
      have hfindMid : (updateBalance st.accounts fromId
            (fun b => b - amount)).find? (fun a => a.id == toId) = some ta := by
        rw [find_updateBalance_ne _ fromId toId _ hne2, hTfind]
      have hwfMid : ((updateBalance st.accounts fromId
            (fun b => b - amount)).map Account.id).Nodup := by
        rw [updateBalance_map_id]
        exact hwf
      refine ⟨fa.balance, ta.balance, ?_, ?_, ?_, ?_, by omega, ?_, ?_⟩
      · simp only [balanceOf, getAccount, hFfind]
        rfl
      · simp only [balanceOf, getAccount, hTfind]
        rfl
      · simp only [balanceOf, getAccount, hacc2]
        rw [find_updateBalance_ne _ toId fromId _ hne, find_updateBalance_self,
          hFfind]
        rfl
      · simp only [balanceOf, getAccount, hacc2]
        rw [find_updateBalance_self, hfindMid]
        rfl
      · simp only [sumBalances, hacc2]
        rw [sum_updateBalance _ toId _ ta hwfMid hfindMid,
          sum_updateBalance _ fromId _ fa hwf hFfind]
        omega
      · intro otherId hof hot
        simp only [balanceOf, getAccount, hacc2]
        rw [find_updateBalance_ne _ toId otherId _ hot,
          find_updateBalance_ne _ fromId otherId _ hof]
  · intro newId now id amount tlog st2 heq
    rcases deposit_dichotomy newId now id amount st with
      ⟨⟨e, he⟩, _, _⟩ | ⟨acct, hA, hpos, hacc, r, hr, htx⟩
    · rw [heq] at he
      simp at he
    · have hAfind : st.accounts.find? (fun a => a.id == id) = some acct := hA
      have hacc2 : st2.accounts =
          updateBalance st.accounts id (fun b => b + amount) := by
        rw [← hacc, heq]
      constructor
      · simp only [sumBalances, hacc2]
        rw [sum_updateBalance _ id _ acct hwf hAfind]
        omega
      · intro otherId ho
        simp only [balanceOf, getAccount, hacc2]
        rw [find_updateBalance_ne _ id otherId _ ho]
  · intro newId now id amount tlog st2 heq
    rcases withdraw_dichotomy newId now id amount st with
      ⟨⟨e, he⟩, _, _⟩ | ⟨acct, hA, hpos, hbal, hacc, r, hr, htx⟩
    · rw [heq] at he
      simp at he
    · have hAfind : st.accounts.find? (fun a => a.id == id) = some acct := hA
      have hacc2 : st2.accounts =
          updateBalance st.accounts id (fun b => b - amount) := by
        rw [← hacc, heq]
      constructor
      · simp only [sumBalances, hacc2]
        rw [sum_updateBalance _ id _ acct hwf hAfind]
        omega
      · intro otherId ho
        simp only [balanceOf, getAccount, hacc2]
        rw [find_updateBalance_ne _ id otherId _ ho]

/-- C1 witness: a successful transfer of 20 from Alice (100) to Bob (50)
yields balances 80 and 70, preserves the global sum and leaves every other
account untouched. -/
theorem conservation_law_witness :
    ∃ bf bt, balanceOf aliceBob "a" = some bf ∧
      balanceOf aliceBob "b" = some bt ∧
      balanceOf (transfer "t1" "n" "a" "b" 20 aliceBob).2 "a" =
        some (bf - 20) ∧
      balanceOf (transfer "t1" "n" "a" "b" 20 aliceBob).2 "b" =
        some (bt + 20) ∧
      (bf - 20) + (bt + 20) = bf + bt ∧
      sumBalances (transfer "t1" "n" "a" "b" 20 aliceBob).2 =
        sumBalances aliceBob ∧
      ∀ otherId, otherId ≠ "a" → otherId ≠ "b" →
        balanceOf (transfer "t1" "n" "a" "b" 20 aliceBob).2 otherId =
          balanceOf aliceBob otherId :=
  (conservation_law aliceBob (by decide)).1 "t1" "n" "a" "b" 20
    { id := "t1", fromAccountId := some "a", toAccountId := some "b",
      amount := 20, type := TxType.transfer, timestamp := "n" }
    (transfer "t1" "n" "a" "b" 20 aliceBob).2 (by rfl)
